import Mathlib

/-!
# Shallow embedding of `osint_tool.py` (`OSINTSocialVerifier`)

This file embeds the data model and the operations of the OSINT social
verifier in Lean 4 and proves the specification claims about them.

Modelling conventions:
* Python strings are `String`, dictionaries keyed by strings are ordered
  association lists `List (String × α)` with first-key-wins lookup
  (Python dictionaries have no duplicate keys, so this is exact).
* HTTP traffic is an oracle `fetch : String → Except String Response`
  mapping a URL to either a transport error message
  (`requests.RequestException`) or a `Response` (status code and body).
* The HTML metadata extractor `_extract_profile_data` is pure regex
  scraping whose output is an arbitrary string dictionary; it is passed
  as an oracle `extract : Response → String → Metadata` since no claim
  constrains its output beyond its type.
* Python floats are modelled as exact rationals `ℚ`; every literal the
  scorer adds is a multiple of `0.1` and the sums stay in `[0, 1]`.
* `datetime.now()` is an oracle `now : String`.
* A Python function that can raise an uncaught exception is embedded as
  `Except PyErr _`; `check_username_availability` raises `KeyError` on a
  platform id missing from the registry and catches only
  `requests.RequestException` (the `.error` side of `fetch`).
-/

/-- One character of a Python string. `startChars s p` decides whether
`p` is a prefix of `s` (character lists). -/
def startChars : List Char → List Char → Bool
  | _, [] => true
  | [], _ :: _ => false
  | c :: s, p :: ps => c == p && startChars s ps

/-- `charsContain s p` decides Python's substring test `p in s`. -/
def charsContain : List Char → List Char → Bool
  | [], p => startChars [] p
  | c :: s, p => startChars (c :: s) p || charsContain s p

/-- Python `pat in content` on strings. -/
def strContains (content pat : String) : Bool :=
  charsContain content.data pat.data

/-- Python `str.lower()` on one character (ASCII range; every pattern
this program compares against is ASCII). -/
def lowerChar (c : Char) : Char :=
  if 65 ≤ c.toNat ∧ c.toNat ≤ 90 then Char.ofNat (c.toNat + 32) else c

/-- Python `response.text.lower()`. -/
def strToLower (s : String) : String :=
  ⟨s.data.map lowerChar⟩

/-- Python `str.replace(old, new)` for a one-character `old`, as used by
`generate_username_variants` (`base_username.replace('_', …)`). -/
def pyReplaceChar (s : String) (old : Char) (new : String) : String :=
  ⟨s.data.flatMap (fun c => if c == old then new.data else [c])⟩

/-- Python `template.format(username)`: substitute the single `{}` hole
of a URL template. -/
def pyFormatChars (t : List Char) (arg : List Char) : List Char :=
  match t with
  | [] => []
  | c :: rest =>
    match rest with
    | [] => [c]
    | d :: rest2 =>
      if c == '\x7b' && d == '\x7d' then arg ++ rest2
      else c :: pyFormatChars rest arg

/-- Python `template.format(username)` on strings. -/
def pyFormat (template arg : String) : String :=
  ⟨pyFormatChars template.data arg.data⟩

/-- First-key-wins lookup in a string-keyed Python dictionary. -/
def dictGet {α : Type} : List (String × α) → String → Option α
  | [], _ => none
  | (k, v) :: rest, key => if k == key then some v else dictGet rest key

/-- Keys of a string-keyed Python dictionary, in insertion order. -/
def dictKeys {α : Type} (d : List (String × α)) : List String :=
  d.map (·.1)

/-- An HTTP response as seen by the tool: `response.status_code` and
`response.text`. -/
structure Response where
  status_code : Nat
  text : String

/-- Profile metadata dictionary (`profile_data`). -/
abbrev Metadata := List (String × String)

/-- Python truthiness of `profile_data.get(key)`: the key is present and
its value is a nonempty string. -/
def truthy (o : Option String) : Bool :=
  match o with
  | none => false
  | some v => !(v == "")

/-- An uncaught Python exception of the embedded code. -/
inductive PyErr where
  | keyError (key : String)
deriving DecidableEq

/-- `SocialAccount` dataclass. The Python field `exists` is spelled
`exists_` because `exists` is a reserved word in Lean. -/
structure SocialAccount where
  platform : String
  username : String
  url : String
  exists_ : Bool
  profile_data : Metadata
  confidence_score : ℚ
  last_checked : String
deriving DecidableEq

/-- `PersonProfile` dataclass. -/
structure PersonProfile where
  name : String
  email : String
  phone : String
  location : String
  profession : String
  common_username : String
  website : String
deriving DecidableEq

/-- One record of `report_data['found_accounts']`. -/
structure FoundRecord where
  platform : String
  username : String
  url : String
  confidence_score : ℚ
  profile_data : Metadata
deriving DecidableEq

/-- Result dictionary of `search_email_presence`. -/
structure EmailResult where
  email : String
  found_in_breaches : Bool
  public_presence : List String
  verification_status : String
deriving DecidableEq

/-- Result dictionary of `search_phone_presence`. -/
structure PhoneResult where
  phone : String
  whatsapp_business : Bool
  telegram_found : Bool
  public_listings : List String
  format_valid : Bool
deriving DecidableEq

/-- `report_data['verification_summary']`. -/
structure Summary where
  main_username_results : Nat
  variant_results : Nat
  email_verification : EmailResult
  phone_verification : PhoneResult
  total_accounts_found : Nat
  high_confidence_accounts : Nat
deriving DecidableEq

/-- The verifier's shared mutable `report_data` dictionary. -/
structure ReportData where
  timestamp : String
  target_profile : Option PersonProfile
  found_accounts : List FoundRecord
  verification_summary : Option Summary
  recommendations : List String
deriving DecidableEq

/-- `report_data` as initialised in `__init__`. -/
def initialReport (now : String) : ReportData :=
  { timestamp := now
    target_profile := none
    found_accounts := []
    verification_summary := none
    recommendations := [] }

/-- `self.platforms`: the registry of URL templates from `__init__`. -/
def platforms : List (String × String) :=
  [ ("twitter", "https://twitter.com/\x7b\x7d"),
    ("instagram", "https://www.instagram.com/\x7b\x7d"),
    ("facebook", "https://www.facebook.com/\x7b\x7d"),
    ("linkedin", "https://www.linkedin.com/in/\x7b\x7d"),
    ("github", "https://github.com/\x7b\x7d"),
    ("pinterest", "https://www.pinterest.com/\x7b\x7d"),
    ("tiktok", "https://www.tiktok.com/@\x7b\x7d"),
    ("behance", "https://www.behance.net/\x7b\x7d"),
    ("dribbble", "https://dribbble.com/\x7b\x7d"),
    ("medium", "https://medium.com/@\x7b\x7d"),
    ("youtube", "https://www.youtube.com/user/\x7b\x7d"),
    ("reddit", "https://www.reddit.com/user/\x7b\x7d"),
    ("telegram", "https://t.me/\x7b\x7d"),
    ("twitch", "https://www.twitch.tv/\x7b\x7d"),
    ("snapchat", "https://www.snapchat.com/add/\x7b\x7d") ]

/-- The platform ids of the registry, in insertion order. -/
def registryKeys : List String := dictKeys platforms

/-- `not_found_patterns` of `_analyze_response`. -/
def not_found_patterns : List (String × List String) :=
  [ ("twitter", ["this account doesn't exist", "account suspended", "profile not found"]),
    ("instagram", ["page not found", "user not found", "sorry, this page isn't available"]),
    ("facebook", ["page not found", "content not found", "profile not available"]),
    ("linkedin", ["page not found", "member not found", "profile not found"]),
    ("github", ["not found", "404", "doesn't exist"]),
    ("pinterest", ["page not found", "profile not found"]),
    ("tiktok", ["couldn't find this account", "no content found"]),
    ("behance", ["page not found", "profile not found"]),
    ("dribbble", ["page not found", "profile not found"]),
    ("medium", ["page not found", "profile not found"]),
    ("youtube", ["channel doesn't exist", "404", "user not found"]),
    ("reddit", ["page not found", "user not found"]),
    ("telegram", ["username not found", "user not found"]),
    ("twitch", ["page not found", "user not found"]),
    ("snapchat", ["page not found", "user not found"]) ]

/-- The configured negative phrases of a platform (empty when the
platform has no entry in `not_found_patterns`). -/
def negativePhrases (platform : String) : List String :=
  (dictGet not_found_patterns platform).getD []

/-- The inner `for pattern in …: if pattern in content: return False`
loop of `_analyze_response`; falls through to `True`. -/
def scanPhrases : List String → String → Bool
  | [], _ => true
  | p :: ps, content => if strContains content p then false else scanPhrases ps content

/-- `_analyze_response`: a 200 response whose lower-cased body contains
none of the platform's negative phrases means the account exists; any
other status code means it does not. -/
def _analyze_response (response : Response) (platform : String) : Bool :=
  if response.status_code == 200 then
    let content := strToLower response.text
    match dictGet not_found_patterns platform with
    | some pats => scanPhrases pats content
    | none => true
  else
    false

/-- `platform_bonus` of `_calculate_confidence_score`. -/
def platform_bonus : List (String × ℚ) :=
  [("linkedin", 0.1), ("github", 0.1), ("behance", 0.1), ("dribbble", 0.1)]

/-- `_calculate_confidence_score`: base 0.3, additive field bonuses,
professional-platform bonus, clamped by `min(score, 1.0)`. -/
def _calculate_confidence_score (profile_data : Metadata) (platform : String) : ℚ :=
  let score : ℚ := 0
  let score := score + 0.3
  let score := if truthy (dictGet profile_data "name") then score + 0.2 else score
  let score := if truthy (dictGet profile_data "description") then score + 0.2 else score
  let score := if truthy (dictGet profile_data "followers") then score + 0.1 else score
  let score := if truthy (dictGet profile_data "location") then score + 0.1 else score
  let score :=
    match dictGet platform_bonus platform with
    | some b => score + b
    | none => score
  min score 1

/-- Python `\d` restricted to ASCII (all patterns and claims of this
development are ASCII). -/
def pyDigit (c : Char) : Bool :=
  decide (48 ≤ c.toNat ∧ c.toNat ≤ 57)

/-- Python `\s` restricted to ASCII: space, tab, newline, carriage
return, vertical tab, form feed. -/
def pySpace (c : Char) : Bool :=
  c == ' ' || c == '\t' || c == '\n' || c == '\r' || c == '\x0b' || c == '\x0c'

/-- Consume exactly `\d{3}` from the front, returning the remainder. -/
def matchD3 : List Char → Option (List Char)
  | a :: b :: c :: rest =>
    if pyDigit a && pyDigit b && pyDigit c then some rest else none
  | _ => none

/-- End-of-match test for Python `re.match`'s `$` (end of string, or
just before one trailing newline). -/
def matchEnd : List Char → Bool
  | [] => true
  | [c] => c == '\n'
  | _ => false

/-- Consume one `\s?\d{3}` group from the front. A whitespace character
is never a digit, so the optional `\s?` is consumed exactly when the
head is whitespace. -/
def matchGroup (s : List Char) : Option (List Char) :=
  match s with
  | c :: rest => if pySpace c then matchD3 rest else matchD3 s
  | [] => none

/-- Match `(\s?\d{3}){3}$` (three groups, then end). -/
def matchGroups3 (s : List Char) : Bool :=
  match matchGroup s with
  | none => false
  | some r1 =>
    match matchGroup r1 with
    | none => false
    | some r2 =>
      match matchGroup r2 with
      | none => false
      | some r3 => matchEnd r3

/-- Match `\d{1,3}(\s?\d{3}){3}$` with the backtracking of `\d{1,3}`:
try one, two, then three leading digits. -/
def matchDigits13 (s : List Char) : Bool :=
  match s with
  | [] => false
  | a :: r1 =>
    pyDigit a &&
      (matchGroups3 r1 ||
        match r1 with
        | [] => false
        | b :: r2 =>
          pyDigit b &&
            (matchGroups3 r2 ||
              match r2 with
              | [] => false
              | c :: r3 => pyDigit c && matchGroups3 r3))

/-- The phone-format check of `search_phone_presence`, hand-compiled
from `re.match(r'^\+\d{1,3}\s?\d{3}\s?\d{3}\s?\d{3}$', phone)`. -/
def phoneRegexMatch (s : List Char) : Bool :=
  match s with
  | c :: rest => c == '+' && matchDigits13 rest
  | [] => false

/-- `search_phone_presence`: stub lookups plus the regex shape check;
a failed check only sets `format_valid := false`, the result is still
returned. -/
def search_phone_presence (phone : String) : PhoneResult :=
  { phone := phone
    whatsapp_business := false
    telegram_found := false
    public_listings := []
    format_valid := phoneRegexMatch phone.data }

/-- Modelled from the spec: the character class `[\d\s-]` of the spec's
phone pattern. -/
def specPhoneClass (c : Char) : Bool :=
  pyDigit c || pySpace c || c == '-'

/-- Modelled from the spec: match `\d[\d\s-]{7,}$` (Python `$` is
subsumed because `\n` is itself in `\s`). -/
def specPhoneCore : List Char → Bool
  | [] => false
  | c :: rest => pyDigit c && rest.all specPhoneClass && decide (7 ≤ rest.length)

/-- Modelled from the spec: the spec's claimed phone validation regex
`^\+?\d[\d\s-]{7,}$`, with both branches of the optional `\+?`. -/
def specPhoneMatch (s : List Char) : Bool :=
  (match s with
   | '+' :: rest => specPhoneCore rest
   | _ => false) || specPhoneCore s

/-- `search_email_presence`: a stub that always ends in
`requires_manual_check`. -/
def search_email_presence (email : String) : EmailResult :=
  { email := email
    found_in_breaches := false
    public_presence := []
    verification_status := "requires_manual_check" }

/-- `generate_username_variants`: the base plus nine structural
transforms, collapsed by `list(set(variants))`. Python's set order is
unspecified; `List.dedup` is one stable enumeration of the same set. -/
def generate_username_variants (base_username : String) : List String :=
  let variants := [base_username]
  let variants := variants ++
    [ base_username ++ "1",
      base_username ++ "2",
      base_username ++ "_",
      base_username ++ ".",
      base_username ++ "-",
      base_username ++ "123",
      pyReplaceChar base_username '_' "",
      pyReplaceChar base_username '_' ".",
      pyReplaceChar base_username '_' "-" ]
  variants.dedup

/-- The `print(f"[ERROR] …")` line of the `except` branch. -/
def errLogLine (platform e : String) : String :=
  "[ERROR] Error al verificar " ++ platform ++ ": " ++ e

/-- The URL `self.platforms[platform].format(username)` would produce
(empty when the platform is not registered, in which case
`check_username_availability` raises before using it). -/
def probeUrl (username platform : String) : String :=
  match dictGet platforms platform with
  | some tmpl => pyFormat tmpl username
  | none => ""

/-- `check_username_availability`. The registry lookup happens before
the `try:` block, so an unknown platform id raises `KeyError`
(`.error`); inside the block a failed fetch is caught and turned into a
negative `SocialAccount` plus one error-log line. -/
def check_username_availability (username platform : String)
    (fetch : String → Except String Response)
    (extract : Response → String → Metadata)
    (now : String) : Except PyErr (SocialAccount × List String) :=
  match dictGet platforms platform with
  | none => .error (.keyError platform)
  | some tmpl =>
    let url := pyFormat tmpl username
    match fetch url with
    | .error e =>
        .ok ({ platform := platform, username := username, url := url,
               exists_ := false, profile_data := [], confidence_score := 0,
               last_checked := now }, [errLogLine platform e])
    | .ok response =>
        let ex := _analyze_response response platform
        if ex then
          let pd := extract response platform
          .ok ({ platform := platform, username := username, url := url,
                 exists_ := true, profile_data := pd,
                 confidence_score := _calculate_confidence_score pd platform,
                 last_checked := now }, [])
        else
          .ok ({ platform := platform, username := username, url := url,
                 exists_ := false, profile_data := [], confidence_score := 0,
                 last_checked := now }, [])

/-- The loop body of `search_all_platforms` over a list of platform
ids, threading `report_data`: positive probes are collected and also
appended to `found_accounts`. -/
def searchLoop (username : String)
    (fetch : String → Except String Response)
    (extract : Response → String → Metadata)
    (now : String) : List String → ReportData → Except PyErr (List SocialAccount × ReportData)
  | [], rd => .ok ([], rd)
  | p :: ps, rd =>
    match check_username_availability username p fetch extract now with
    | .error err => .error err
    | .ok (account, _log) =>
      if account.exists_ then
        let rd' := { rd with found_accounts := rd.found_accounts ++
          [{ platform := p, username := username, url := account.url,
             confidence_score := account.confidence_score,
             profile_data := account.profile_data }] }
        match searchLoop username fetch extract now ps rd' with
        | .error err => .error err
        | .ok (rest, rd'') => .ok (account :: rest, rd'')
      else
        searchLoop username fetch extract now ps rd

/-- `search_all_platforms`: probe every registry platform in insertion
order; return the positive probes and the updated `report_data`. -/
def search_all_platforms (username : String)
    (fetch : String → Except String Response)
    (extract : Response → String → Metadata)
    (now : String) (rd : ReportData) : Except PyErr (List SocialAccount × ReportData) :=
  searchLoop username fetch extract now registryKeys rd

/-- `set_target_profile`. -/
def set_target_profile (profile : PersonProfile) (rd : ReportData) : ReportData :=
  { rd with target_profile := some profile }

/-- `_generate_recommendations`, as a function of the
`total_accounts_found` it reads from the summary: two conditional
items followed by four fixed ones. -/
def _generate_recommendations (total_accounts : Nat) : List String :=
  let recommendations : List String := []
  let recommendations :=
    if total_accounts > 10 then
      recommendations ++ ["Alto número de cuentas encontradas - considerar auditar perfiles no utilizados"]
    else recommendations
  let recommendations :=
    if total_accounts > 5 then
      recommendations ++ ["Implementar autenticación de dos factores en todas las cuentas"]
    else recommendations
  recommendations ++
    [ "Verificar configuraciones de privacidad en todas las plataformas",
      "Usar nombres de usuario únicos para diferentes propósitos",
      "Monitorear regularmente la presencia en línea",
      "Considerar el uso de un gestor de contraseñas" ]

/-- The `for variant in variants[:5]: if variant != common_username:`
loop of `comprehensive_search`, concatenating the per-variant results
and threading `report_data`. -/
def variantLoop (base : String)
    (fetch : String → Except String Response)
    (extract : Response → String → Metadata)
    (now : String) : List String → ReportData → Except PyErr (List SocialAccount × ReportData)
  | [], rd => .ok ([], rd)
  | v :: vs, rd =>
    if v == base then variantLoop base fetch extract now vs rd
    else
      match search_all_platforms v fetch extract now rd with
      | .error err => .error err
      | .ok (res, rd') =>
        match variantLoop base fetch extract now vs rd' with
        | .error err => .error err
        | .ok (rest, rd'') => .ok (res ++ rest, rd'')

/-- `comprehensive_search`: stamp the target profile, probe the main
username, probe up to five variants, run the stub email and phone
checks, store the summary, regenerate recommendations, and return the
shared `report_data`. -/
def comprehensive_search (profile : PersonProfile)
    (fetch : String → Except String Response)
    (extract : Response → String → Metadata)
    (now : String) (rd : ReportData) : Except PyErr ReportData :=
  let rd := set_target_profile profile rd
  match search_all_platforms profile.common_username fetch extract now rd with
  | .error err => .error err
  | .ok (main_results, rd) =>
    let variants := generate_username_variants profile.common_username
    match variantLoop profile.common_username fetch extract now (variants.take 5) rd with
    | .error err => .error err
    | .ok (variant_results, rd) =>
      let email_results := search_email_presence profile.email
      let phone_results := search_phone_presence profile.phone
      let summary : Summary :=
        { main_username_results := main_results.length
          variant_results := variant_results.length
          email_verification := email_results
          phone_verification := phone_results
          total_accounts_found := main_results.length + variant_results.length
          high_confidence_accounts :=
            ((main_results ++ variant_results).filter
              (fun r => decide ((0.7 : ℚ) < r.confidence_score))).length }
      let rd := { rd with verification_summary := some summary }
      let rd := { rd with
        recommendations := _generate_recommendations summary.total_accounts_found }
      .ok rd

/-- Declarative semantics of `\s?`: the empty string or one whitespace
character. -/
def OptSpace (l : List Char) : Prop :=
  l = [] ∨ ∃ c, l = [c] ∧ pySpace c = true

/-- Declarative semantics of `\d{3}`: exactly three digits. -/
def ThreeDigits (l : List Char) : Prop :=
  l.length = 3 ∧ ∀ c ∈ l, pyDigit c = true

/-- Declarative semantics of the source's phone pattern
`^\+\d{1,3}\s?\d{3}\s?\d{3}\s?\d{3}$` under Python `re.match`: a
mandatory `+`, one to three digits, three groups of an optional
whitespace character followed by three digits, and the end of the
string (allowing one trailing newline, as Python's `$` does). -/
def PhonePattern (s : List Char) : Prop :=
  ∃ d1 s1 d2 s2 d3 s3 d4 t,
    s = '+' :: (d1 ++ s1 ++ d2 ++ s2 ++ d3 ++ s3 ++ d4 ++ t) ∧
    1 ≤ d1.length ∧ d1.length ≤ 3 ∧ (∀ c ∈ d1, pyDigit c = true) ∧
    OptSpace s1 ∧ ThreeDigits d2 ∧ OptSpace s2 ∧ ThreeDigits d3 ∧
    OptSpace s3 ∧ ThreeDigits d4 ∧ (t = [] ∨ t = ['\n'])

/-- A fetch oracle on which every HTTP request fails with a transport
error (used to instantiate theorems at concrete inputs). -/
def fetchFail : String → Except String Response :=
  fun _ => .error "timeout"

/-- An extraction oracle returning no metadata (used to instantiate
theorems at concrete inputs). -/
def extractNone : Response → String → Metadata :=
  fun _ _ => []

/-- A concrete target profile (used to instantiate theorems). -/
def profA : PersonProfile :=
  { name := "A", email := "a@b.c", phone := "+34 600 123 456",
    location := "BCN", profession := "design", common_username := "ab",
    website := "w" }

/-- A second concrete target profile (used to instantiate theorems). -/
def profB : PersonProfile :=
  { name := "B", email := "b@c.d", phone := "600",
    location := "MAD", profession := "dev", common_username := "cd",
    website := "v" }

/-- Extract the report of a successful `comprehensive_search` run. -/
def okReport : Except PyErr ReportData → ReportData
  | .ok rd => rd
  | .error _ => initialReport ""

/-- The report after one failing-network `comprehensive_search` on a
fresh verifier. -/
def rd1ex : ReportData :=
  okReport (comprehensive_search profA fetchFail extractNone "t" (initialReport "t"))

/-- The report after a second failing-network `comprehensive_search` on
the same verifier state. -/
def rd2ex : ReportData :=
  okReport (comprehensive_search profB fetchFail extractNone "t" rd1ex)

lemma mem_dictKeys_exists {α : Type} (d : List (String × α)) (k : String)
    (h : k ∈ dictKeys d) : ∃ v, dictGet d k = some v := by
  induction d with
  | nil => simp [dictKeys] at h
  | cons kv rest ih =>
    by_cases hk : kv.1 = k
    · exact ⟨kv.2, by simp [dictGet, hk]⟩
    · have h' : k ∈ dictKeys rest := by
        simp only [dictKeys, List.map_cons, List.mem_cons] at h
        exact h.resolve_left (fun he => hk he.symm)
      obtain ⟨v, hv⟩ := ih h'
      exact ⟨v, by simp [dictGet, hk, hv]⟩

lemma not_mem_dictKeys_none {α : Type} (d : List (String × α)) (k : String)
    (h : k ∉ dictKeys d) : dictGet d k = none := by
  induction d with
  | nil => rfl
  | cons kv rest ih =>
    simp only [dictKeys, List.map_cons, List.mem_cons, not_or] at h
    have : (kv.1 == k) = false := by
      simp only [beq_eq_false_iff_ne, ne_eq]
      exact fun he => h.1 (he ▸ rfl)
    simp only [dictGet, this, Bool.false_eq_true, if_false]
    exact ih h.2

lemma dictGet_platform_bonus (p : String) :
    dictGet platform_bonus p =
      if p ∈ (["linkedin", "github", "behance", "dribbble"] : List String)
      then some (0.1 : ℚ) else none := by
  by_cases h1 : p = "linkedin"
  · subst h1; simp [platform_bonus, dictGet]
  by_cases h2 : p = "github"
  · subst h2; simp [platform_bonus, dictGet]
  by_cases h3 : p = "behance"
  · subst h3; simp [platform_bonus, dictGet]
  by_cases h4 : p = "dribbble"
  · subst h4; simp [platform_bonus, dictGet]
  have e1 : ("linkedin" == p) = false := beq_eq_false_iff_ne.mpr (fun h => h1 h.symm)
  have e2 : ("github" == p) = false := beq_eq_false_iff_ne.mpr (fun h => h2 h.symm)
  have e3 : ("behance" == p) = false := beq_eq_false_iff_ne.mpr (fun h => h3 h.symm)
  have e4 : ("dribbble" == p) = false := beq_eq_false_iff_ne.mpr (fun h => h4 h.symm)
  simp [platform_bonus, dictGet, e1, e2, e3, e4, h1, h2, h3, h4]

/-- Closed form of the scorer: base 0.3 plus the four field bonuses
plus the professional-platform bonus, clamped at 1.0. -/
lemma calc_score_eq (m : Metadata) (platform : String) :
    _calculate_confidence_score m platform =
      min 1 ((0.3 : ℚ)
        + (if truthy (dictGet m "name") then 0.2 else 0)
        + (if truthy (dictGet m "description") then 0.2 else 0)
        + (if truthy (dictGet m "followers") then 0.1 else 0)
        + (if truthy (dictGet m "location") then 0.1 else 0)
        + (if platform ∈ (["linkedin", "github", "behance", "dribbble"] : List String)
           then 0.1 else 0)) := by
  unfold _calculate_confidence_score
  rw [dictGet_platform_bonus]
  split_ifs <;> simp <;> ring_nf <;> rw [min_comm]

lemma calc_score_le_one (m : Metadata) (platform : String) :
    _calculate_confidence_score m platform ≤ 1 := by
  rw [calc_score_eq]
  exact min_le_left _ _

lemma calc_score_nonneg (m : Metadata) (platform : String) :
    0 ≤ _calculate_confidence_score m platform := by
  rw [calc_score_eq]
  refine le_min (by norm_num) ?_
  have h1 : (0 : ℚ) ≤ (if truthy (dictGet m "name") then (0.2 : ℚ) else 0) := by positivity
  have h2 : (0 : ℚ) ≤ (if truthy (dictGet m "description") then (0.2 : ℚ) else 0) := by positivity
  have h3 : (0 : ℚ) ≤ (if truthy (dictGet m "followers") then (0.1 : ℚ) else 0) := by positivity
  have h4 : (0 : ℚ) ≤ (if truthy (dictGet m "location") then (0.1 : ℚ) else 0) := by positivity
  have h5 : (0 : ℚ) ≤ (if platform ∈ (["linkedin", "github", "behance", "dribbble"] : List String)
      then (0.1 : ℚ) else 0) := by positivity
  linarith

lemma scanPhrases_true_iff (ps : List String) (content : String) :
    scanPhrases ps content = true ↔ ∀ p ∈ ps, strContains content p = false := by
  induction ps with
  | nil => simp [scanPhrases]
  | cons p ps ih =>
    by_cases h : strContains content p
    · simp [scanPhrases, h]
    · simp only [Bool.not_eq_true] at h
      simp [scanPhrases, h, ih]

/-- C1: for every platform in the registry, every status code, and
every body, `_analyze_response` answers `true` exactly when the status
is 200 and the lower-cased body contains none of the platform's
configured negative phrases; any non-200 status yields `false`, and an
empty phrase list would yield `true` on any 200 response. -/
theorem analyze_response_exists_iff (platform : String) (status : Nat) (body : String)
    (hp : platform ∈ registryKeys) :
    _analyze_response ⟨status, body⟩ platform = true ↔
      (status = 200 ∧
        ∀ pat ∈ negativePhrases platform, strContains (strToLower body) pat = false) := by
  unfold _analyze_response negativePhrases
  by_cases h : status = 200
  · subst h
    simp only [beq_self_eq_true, if_true, true_and]
    cases hd : dictGet not_found_patterns platform with
    | none => simp [scanPhrases_true_iff]
    | some pats => simp [scanPhrases_true_iff]
  · have hb : (status == 200) = false := by simp [h]
    simp [hb, h]

/-- Witness for C1 at a concrete probe: a 200 GitHub page with a clean
body is classified as existing. -/
theorem analyze_response_exists_iff_witness :
    "github" ∈ registryKeys ∧
    _analyze_response ⟨200, "octocat profile page"⟩ "github" = true :=
  ⟨by decide,
   (analyze_response_exists_iff "github" 200 "octocat profile page" (by decide)).mpr
     ⟨rfl, by decide⟩⟩

/-- C2: the confidence scorer is exactly
`min(1.0, 0.3 + 0.2·name + 0.2·description + 0.1·followers +
0.1·location + 0.1·professional-platform)`, a pure function of the
metadata and the platform id ("present" is Python's truthiness of
`profile_data.get(...)`: the key maps to a nonempty string). -/
theorem confidence_score_formula (m : Metadata) (platform : String) :
    _calculate_confidence_score m platform =
      min 1 ((0.3 : ℚ)
        + (if truthy (dictGet m "name") then 0.2 else 0)
        + (if truthy (dictGet m "description") then 0.2 else 0)
        + (if truthy (dictGet m "followers") then 0.1 else 0)
        + (if truthy (dictGet m "location") then 0.1 else 0)
        + (if platform ∈ (["linkedin", "github", "behance", "dribbble"] : List String)
           then 0.1 else 0)) :=
  calc_score_eq m platform

lemma check_ok_inv (username platform now : String)
    (fetch : String → Except String Response)
    (extract : Response → String → Metadata)
    (hp : platform ∈ registryKeys) :
    ∃ acc log, check_username_availability username platform fetch extract now = .ok (acc, log) ∧
      acc.platform = platform ∧ acc.username = username ∧
      0 ≤ acc.confidence_score ∧ acc.confidence_score ≤ 1 ∧
      (acc.exists_ = false → acc.confidence_score = 0 ∧ acc.profile_data = []) := by
  obtain ⟨tmpl, ht⟩ := mem_dictKeys_exists platforms platform hp
  unfold check_username_availability
  rw [ht]
  dsimp only
  cases hf : fetch (pyFormat tmpl username) with
  | error e =>
    exact ⟨_, _, rfl, rfl, rfl, le_refl 0, by norm_num, fun _ => ⟨rfl, rfl⟩⟩
  | ok response =>
    dsimp only
    cases hex : _analyze_response response platform with
    | true =>
      rw [if_pos rfl]
      exact ⟨_, _, rfl, rfl, rfl, calc_score_nonneg _ _, calc_score_le_one _ _,
        fun h => by simp at h⟩
    | false =>
      rw [if_neg (by simp)]
      exact ⟨_, _, rfl, rfl, rfl, le_refl 0, by norm_num, fun _ => ⟨rfl, rfl⟩⟩

/-- C3: probing any registry platform returns a result whose
confidence lies in `[0, 1]` and is exactly `0` whenever the account was
not found. -/
theorem probe_confidence_in_unit_interval (username platform now : String)
    (fetch : String → Except String Response)
    (extract : Response → String → Metadata)
    (hp : platform ∈ registryKeys) :
    ∃ acc log, check_username_availability username platform fetch extract now = .ok (acc, log) ∧
      0 ≤ acc.confidence_score ∧ acc.confidence_score ≤ 1 ∧
      (acc.exists_ = false → acc.confidence_score = 0) := by
  obtain ⟨acc, log, h, -, -, h0, h1, himp⟩ :=
    check_ok_inv username platform now fetch extract hp
  exact ⟨acc, log, h, h0, h1, fun he => (himp he).1⟩

/-- Witness for C3 at a concrete probe (network failure on twitter). -/
theorem probe_confidence_in_unit_interval_witness :
    "twitter" ∈ registryKeys ∧
    (∃ acc log,
      check_username_availability "alice" "twitter" fetchFail extractNone "t" = .ok (acc, log) ∧
      0 ≤ acc.confidence_score ∧ acc.confidence_score ≤ 1 ∧
      (acc.exists_ = false → acc.confidence_score = 0)) :=
  ⟨by decide,
   probe_confidence_in_unit_interval "alice" "twitter" "t" fetchFail extractNone (by decide)⟩

/-- C5: when the HTTP fetch fails, the probe recovers locally: it
returns (never raises) a negative `SocialAccount` with empty metadata
and confidence `0`, and logs one error line. -/
theorem probe_failure_negative_result (username platform now e : String)
    (fetch : String → Except String Response)
    (extract : Response → String → Metadata)
    (hp : platform ∈ registryKeys)
    (hfail : fetch (probeUrl username platform) = .error e) :
    check_username_availability username platform fetch extract now =
      .ok ({ platform := platform, username := username,
             url := probeUrl username platform, exists_ := false,
             profile_data := [], confidence_score := 0, last_checked := now },
           [errLogLine platform e]) := by
  obtain ⟨tmpl, ht⟩ := mem_dictKeys_exists platforms platform hp
  have hurl : probeUrl username platform = pyFormat tmpl username := by
    unfold probeUrl
    rw [ht]
  rw [hurl] at hfail ⊢
  unfold check_username_availability
  rw [ht]
  dsimp only
  rw [hfail]

/-- Witness for C5: a timed-out twitter probe. -/
theorem probe_failure_negative_result_witness :
    "twitter" ∈ registryKeys ∧
    fetchFail (probeUrl "alice" "twitter") = .error "timeout" ∧
    check_username_availability "alice" "twitter" fetchFail extractNone "t" =
      .ok ({ platform := "twitter", username := "alice",
             url := probeUrl "alice" "twitter", exists_ := false,
             profile_data := [], confidence_score := 0, last_checked := "t" },
           [errLogLine "twitter" "timeout"]) :=
  ⟨by decide, rfl,
   probe_failure_negative_result "alice" "twitter" "t" "timeout" fetchFail extractNone
     (by decide) rfl⟩

/-- C9: the registry has exactly 15 platform ids, and probing any id
outside it raises an uncaught `KeyError` from the template lookup
(before any network access: the error is the same for every fetch
oracle), instead of producing a negative result. -/
theorem unknown_platform_keyerror (username platform now : String)
    (fetch : String → Except String Response)
    (extract : Response → String → Metadata)
    (hp : platform ∉ registryKeys) :
    registryKeys.length = 15 ∧
    check_username_availability username platform fetch extract now =
      .error (.keyError platform) := by
  refine ⟨rfl, ?_⟩
  unfold check_username_availability
  rw [not_mem_dictKeys_none platforms platform hp]

/-- Witness for C9: the unregistered platform id `myspace`. -/
theorem unknown_platform_keyerror_witness :
    "myspace" ∉ registryKeys ∧
    (registryKeys.length = 15 ∧
     check_username_availability "alice" "myspace" fetchFail extractNone "t" =
       .error (.keyError "myspace")) :=
  ⟨by decide,
   unknown_platform_keyerror "alice" "myspace" "t" fetchFail extractNone (by decide)⟩

lemma check_ok_fields (username platform now : String)
    (fetch : String → Except String Response)
    (extract : Response → String → Metadata)
    (acc : SocialAccount) (log : List String)
    (h : check_username_availability username platform fetch extract now = .ok (acc, log)) :
    acc.platform = platform ∧ acc.username = username := by
  unfold check_username_availability at h
  split at h
  · exact absurd h (by simp)
  · dsimp only at h
    split at h
    · simp only [Except.ok.injEq, Prod.mk.injEq] at h
      obtain ⟨h1, -⟩ := h
      subst h1
      exact ⟨rfl, rfl⟩
    · split at h
      · simp only [Except.ok.injEq, Prod.mk.injEq] at h
        obtain ⟨h1, -⟩ := h
        subst h1
        exact ⟨rfl, rfl⟩
      · simp only [Except.ok.injEq, Prod.mk.injEq] at h
        obtain ⟨h1, -⟩ := h
        subst h1
        exact ⟨rfl, rfl⟩

lemma searchLoop_spec (username now : String)
    (fetch : String → Except String Response)
    (extract : Response → String → Metadata) :
    ∀ (keys : List String) (rd : ReportData) (res : List SocialAccount) (rd' : ReportData),
      searchLoop username fetch extract now keys rd = .ok (res, rd') →
      (∀ a ∈ res, a.exists_ = true) ∧
      rd'.found_accounts = rd.found_accounts ++ res.map (fun a =>
        ({ platform := a.platform, username := a.username, url := a.url,
           confidence_score := a.confidence_score,
           profile_data := a.profile_data } : FoundRecord)) ∧
      rd'.timestamp = rd.timestamp ∧
      rd'.target_profile = rd.target_profile ∧
      rd'.verification_summary = rd.verification_summary ∧
      rd'.recommendations = rd.recommendations := by
  intro keys
  induction keys with
  | nil =>
    intro rd res rd' h
    unfold searchLoop at h
    simp only [Except.ok.injEq, Prod.mk.injEq] at h
    obtain ⟨h1, h2⟩ := h
    subst h1
    subst h2
    simp
  | cons p ps ih =>
    intro rd res rd' h
    unfold searchLoop at h
    split at h
    · exact absurd h (by simp)
    case h_2 account lg heq =>
      split at h
      case isTrue hex =>
        dsimp only at h
        split at h
        · exact absurd h (by simp)
        case h_2 rest rd'' heq2 =>
          simp only [Except.ok.injEq, Prod.mk.injEq] at h
          obtain ⟨h1, h2⟩ := h
          subst h1
          subst h2
          obtain ⟨hplat, huser⟩ :=
            check_ok_fields username p now fetch extract account lg heq
          obtain ⟨ha, hfa, hts, htp, hvs, hrec⟩ := ih _ _ _ heq2
          refine ⟨?_, ?_, hts, htp, hvs, hrec⟩
          · intro a hmem
            rcases List.mem_cons.mp hmem with h | h
            · subst h; exact hex
            · exact ha a h
          · rw [hfa]
            simp [hplat, huser, List.append_assoc]
      case isFalse hex =>
        obtain ⟨ha, hfa, hts, htp, hvs, hrec⟩ := ih _ _ _ h
        exact ⟨ha, hfa, hts, htp, hvs, hrec⟩

/-- C6: `search_all_platforms` returns only positive probes, and what
it adds to the shared `found_accounts` list is exactly the record of
each positive probe — an `exists = false` result is never recorded. -/
theorem search_all_platforms_only_positive (username now : String)
    (fetch : String → Except String Response)
    (extract : Response → String → Metadata)
    (rd : ReportData) (results : List SocialAccount) (rd' : ReportData)
    (h : search_all_platforms username fetch extract now rd = .ok (results, rd')) :
    (∀ a ∈ results, a.exists_ = true) ∧
    rd'.found_accounts = rd.found_accounts ++ results.map (fun a =>
      ({ platform := a.platform, username := a.username, url := a.url,
         confidence_score := a.confidence_score,
         profile_data := a.profile_data } : FoundRecord)) := by
  obtain ⟨h1, h2, -⟩ :=
    searchLoop_spec username now fetch extract registryKeys rd results rd' h
  exact ⟨h1, h2⟩

/-- Witness for C6: a fan-out over a failing network returns no
results and appends nothing. -/
theorem search_all_platforms_only_positive_witness :
    search_all_platforms "w" fetchFail extractNone "t" (initialReport "t") =
      .ok ([], initialReport "t") ∧
    ((∀ a ∈ ([] : List SocialAccount), a.exists_ = true) ∧
     (initialReport "t").found_accounts =
       (initialReport "t").found_accounts ++
         ([] : List SocialAccount).map (fun a =>
           ({ platform := a.platform, username := a.username, url := a.url,
              confidence_score := a.confidence_score,
              profile_data := a.profile_data } : FoundRecord))) :=
  ⟨rfl,
   search_all_platforms_only_positive "w" "t" fetchFail extractNone
     (initialReport "t") [] (initialReport "t") rfl⟩

/-- C7: the variant list always contains the base username and has no
duplicates, and for `"john_doe"` it contains the five spelled-out
variants of the claim. -/
theorem generate_variants_base_and_nodup :
    (∀ base : String, base ∈ generate_username_variants base ∧
      (generate_username_variants base).Nodup) ∧
    ("john_doe" ∈ generate_username_variants "john_doe" ∧
     "john_doe1" ∈ generate_username_variants "john_doe" ∧
     "johndoe" ∈ generate_username_variants "john_doe" ∧
     "john.doe" ∈ generate_username_variants "john_doe" ∧
     "john-doe" ∈ generate_username_variants "john_doe") := by
  constructor
  · intro base
    constructor
    · unfold generate_username_variants
      exact List.mem_dedup.mpr (by simp)
    · exact List.nodup_dedup _
  · exact ⟨by decide, by decide, by decide, by decide, by decide⟩

lemma matchD3_some_iff (s r : List Char) :
    matchD3 s = some r ↔ ∃ d, s = d ++ r ∧ ThreeDigits d := by
  constructor
  · intro h
    rcases s with _ | ⟨a, _ | ⟨b, _ | ⟨c, rest⟩⟩⟩
    · simp [matchD3] at h
    · simp [matchD3] at h
    · simp [matchD3] at h
    · simp only [matchD3] at h
      by_cases hd : (pyDigit a && pyDigit b && pyDigit c) = true
      · rw [if_pos hd] at h
        simp only [Option.some.injEq] at h
        subst h
        simp only [Bool.and_eq_true] at hd
        refine ⟨[a, b, c], rfl, ?_⟩
        unfold ThreeDigits
        refine ⟨rfl, ?_⟩
        intro x hx
        rcases List.mem_cons.mp hx with rfl | hx'
        · exact hd.1.1
        rcases List.mem_cons.mp hx' with rfl | hx''
        · exact hd.1.2
        rcases List.mem_cons.mp hx'' with rfl | hx'''
        · exact hd.2
        · simp at hx'''
      · rw [if_neg hd] at h
        exact absurd h (by simp)
  · rintro ⟨d, rfl, hd⟩
    unfold ThreeDigits at hd
    obtain ⟨hlen, hdig⟩ := hd
    rcases d with _ | ⟨a, _ | ⟨b, _ | ⟨c, _ | ⟨x, d'⟩⟩⟩⟩
    · simp at hlen
    · simp at hlen
    · simp at hlen
    · have ha := hdig a (by simp)
      have hb := hdig b (by simp)
      have hc := hdig c (by simp)
      simp [matchD3, ha, hb, hc]
    · simp [List.length_cons] at hlen
  
lemma matchEnd_true_iff (s : List Char) :
    matchEnd s = true ↔ s = [] ∨ s = ['\n'] := by
  rcases s with _ | ⟨c, _ | ⟨d, t⟩⟩
  · simp [matchEnd]
  · simp [matchEnd]
  · simp [matchEnd]

lemma digit_not_space (c : Char) (h : pyDigit c = true) : pySpace c = false := by
  cases hs : pySpace c
  · rfl
  · exfalso
    unfold pySpace at hs
    simp only [Bool.or_eq_true, beq_iff_eq] at hs
    rcases hs with ((((rfl | rfl) | rfl) | rfl) | rfl) | rfl <;> exact absurd h (by decide)

lemma matchGroup_some_iff (s r : List Char) :
    matchGroup s = some r ↔ ∃ sp d, s = sp ++ d ++ r ∧ OptSpace sp ∧ ThreeDigits d := by
  constructor
  · intro h
    rcases s with _ | ⟨c, rest⟩
    · simp [matchGroup] at h
    all_goals simp only [matchGroup] at h
    · by_cases hsp : pySpace c = true
      · rw [if_pos hsp] at h
        obtain ⟨d, hrest, hd⟩ := (matchD3_some_iff rest r).mp h
        refine ⟨[c], d, by simp [hrest], ?_, hd⟩
        unfold OptSpace
        exact Or.inr ⟨c, rfl, hsp⟩
      · rw [if_neg hsp] at h
        obtain ⟨d, hrest, hd⟩ := (matchD3_some_iff (c :: rest) r).mp h
        refine ⟨[], d, by simpa using hrest, ?_, hd⟩
        unfold OptSpace
        exact Or.inl rfl
  · rintro ⟨sp, d, hs, hsp, hd⟩
    unfold OptSpace at hsp
    rcases hsp with rfl | ⟨c, rfl, hc⟩
    · rw [List.nil_append] at hs
      subst hs
      have hd' := hd
      unfold ThreeDigits at hd'
      obtain ⟨hlen, hdig⟩ := hd'
      rcases d with _ | ⟨a, d'⟩
      · simp at hlen
      · have ha : pyDigit a = true := hdig a (by simp)
        have hnsp : pySpace a = false := digit_not_space a ha
        rw [List.cons_append]
        simp only [matchGroup]
        rw [if_neg (by simp [hnsp])]
        exact (matchD3_some_iff _ _).mpr ⟨a :: d', by simp, hd⟩
    · have : ([c] ++ d ++ r) = c :: (d ++ r) := by simp
      rw [this] at hs
      subst hs
      simp only [matchGroup]
      rw [if_pos hc]
      exact (matchD3_some_iff _ _).mpr ⟨d, rfl, hd⟩

lemma matchGroups3_true_iff (s : List Char) :
    matchGroups3 s = true ↔
      ∃ s1 d2 s2 d3 s3 d4 t, s = s1 ++ d2 ++ s2 ++ d3 ++ s3 ++ d4 ++ t ∧
        OptSpace s1 ∧ ThreeDigits d2 ∧ OptSpace s2 ∧ ThreeDigits d3 ∧
        OptSpace s3 ∧ ThreeDigits d4 ∧ (t = [] ∨ t = ['\n']) := by
  constructor
  · intro h
    unfold matchGroups3 at h
    split at h
    · exact absurd h (by simp)
    case h_2 r1 heq1 =>
      split at h
      · exact absurd h (by simp)
      case h_2 r2 heq2 =>
        split at h
        · exact absurd h (by simp)
        case h_2 r3 heq3 =>
          obtain ⟨s1, d2, h1, hs1, hd2⟩ := (matchGroup_some_iff s r1).mp heq1
          obtain ⟨s2p, d3, h2, hs2, hd3⟩ := (matchGroup_some_iff r1 r2).mp heq2
          obtain ⟨s3p, d4, h3, hs3, hd4⟩ := (matchGroup_some_iff r2 r3).mp heq3
          have ht := (matchEnd_true_iff r3).mp h
          refine ⟨s1, d2, s2p, d3, s3p, d4, r3, ?_, hs1, hd2, hs2, hd3, hs3, hd4, ht⟩
          subst h3
          subst h2
          subst h1
          simp [List.append_assoc]
  · rintro ⟨s1, d2, s2, d3, s3, d4, t, rfl, hs1, hd2, hs2, hd3, hs3, hd4, ht⟩
    have g1 : matchGroup (s1 ++ d2 ++ s2 ++ d3 ++ s3 ++ d4 ++ t) =
        some (s2 ++ d3 ++ s3 ++ d4 ++ t) :=
      (matchGroup_some_iff _ _).mpr ⟨s1, d2, by simp [List.append_assoc], hs1, hd2⟩
    have g2 : matchGroup (s2 ++ d3 ++ s3 ++ d4 ++ t) = some (s3 ++ d4 ++ t) :=
      (matchGroup_some_iff _ _).mpr ⟨s2, d3, by simp [List.append_assoc], hs2, hd3⟩
    have g3 : matchGroup (s3 ++ d4 ++ t) = some t :=
      (matchGroup_some_iff _ _).mpr ⟨s3, d4, by simp [List.append_assoc], hs3, hd4⟩
    simp only [matchGroups3, g1, g2, g3]
    exact (matchEnd_true_iff t).mpr ht

lemma matchDigits13_true_iff (s : List Char) :
    matchDigits13 s = true ↔
      ∃ d1 r, s = d1 ++ r ∧ 1 ≤ d1.length ∧ d1.length ≤ 3 ∧
        (∀ c ∈ d1, pyDigit c = true) ∧ matchGroups3 r = true := by
  constructor
  · intro h
    rcases s with _ | ⟨a, r1⟩
    · simp [matchDigits13] at h
    · unfold matchDigits13 at h
      rw [Bool.and_eq_true] at h
      obtain ⟨ha, hor⟩ := h
      rw [Bool.or_eq_true] at hor
      rcases hor with hg | hrest
      · exact ⟨[a], r1, rfl, by simp, by simp, by simp [ha], hg⟩
      · rcases r1 with _ | ⟨b, r2⟩
        · simp at hrest
        · simp only [Bool.and_eq_true, Bool.or_eq_true] at hrest
          obtain ⟨hb, hor2⟩ := hrest
          rcases hor2 with hg | hrest2
          · refine ⟨[a, b], r2, rfl, by simp, by simp, ?_, hg⟩
            intro c hc
            rcases List.mem_cons.mp hc with rfl | hc'
            · exact ha
            rcases List.mem_cons.mp hc' with rfl | hc''
            · exact hb
            · simp at hc''
          · rcases r2 with _ | ⟨c, r3⟩
            · simp at hrest2
            · simp only [Bool.and_eq_true] at hrest2
              obtain ⟨hc, hg⟩ := hrest2
              refine ⟨[a, b, c], r3, rfl, by simp, by simp, ?_, hg⟩
              intro x hx
              rcases List.mem_cons.mp hx with rfl | hx'
              · exact ha
              rcases List.mem_cons.mp hx' with rfl | hx''
              · exact hb
              rcases List.mem_cons.mp hx'' with rfl | hx'''
              · exact hc
              · simp at hx'''
  · rintro ⟨d1, r, rfl, h1, h3, hdig, hg⟩
    rcases d1 with _ | ⟨a, _ | ⟨b, _ | ⟨c, _ | ⟨x, d'⟩⟩⟩⟩
    · simp at h1
    · have ha := hdig a (by simp)
      unfold matchDigits13
      simp [ha, hg]
    · have ha := hdig a (by simp)
      have hb := hdig b (by simp)
      unfold matchDigits13
      simp [ha, hb, hg]
    · have ha := hdig a (by simp)
      have hb := hdig b (by simp)
      have hc := hdig c (by simp)
      unfold matchDigits13
      simp [ha, hb, hc, hg]
    · simp [List.length_cons] at h3

lemma phoneRegexMatch_true_iff (s : List Char) :
    phoneRegexMatch s = true ↔ PhonePattern s := by
  constructor
  · intro h
    rcases s with _ | ⟨c, rest⟩
    · simp [phoneRegexMatch] at h
    · unfold phoneRegexMatch at h
      rw [Bool.and_eq_true, beq_iff_eq] at h
      obtain ⟨rfl, hm⟩ := h
      obtain ⟨d1, r, hrest, h1, h3, hdig, hg⟩ := (matchDigits13_true_iff rest).mp hm
      obtain ⟨s1, d2, s2, d3, s3, d4, t, hr, hs1, hd2, hs2, hd3, hs3, hd4, ht⟩ :=
        (matchGroups3_true_iff r).mp hg
      unfold PhonePattern
      refine ⟨d1, s1, d2, s2, d3, s3, d4, t, ?_, h1, h3, hdig,
        hs1, hd2, hs2, hd3, hs3, hd4, ht⟩
      subst hr
      subst hrest
      simp [List.append_assoc]
  · intro hp
    unfold PhonePattern at hp
    obtain ⟨d1, s1, d2, s2, d3, s3, d4, t, rfl, h1, h3, hdig,
      hs1, hd2, hs2, hd3, hs3, hd4, ht⟩ := hp
    unfold phoneRegexMatch
    simp only [beq_self_eq_true, Bool.true_and]
    exact (matchDigits13_true_iff _).mpr
      ⟨d1, s1 ++ d2 ++ s2 ++ d3 ++ s3 ++ d4 ++ t, by simp [List.append_assoc], h1, h3, hdig,
        (matchGroups3_true_iff _).mpr
          ⟨s1, d2, s2, d3, s3, d4, t, rfl, hs1, hd2, hs2, hd3, hs3, hd4, ht⟩⟩

/-- C8 counterexample: the claim's regex `^\+?\d[\d\s-]{7,}$` accepts
`"12345678"`, but the code's validation rejects it (the source's
pattern `^\+\d{1,3}\s?\d{3}\s?\d{3}\s?\d{3}$` requires a leading `+`
and allows no hyphens). -/
theorem phone_format_claim_counterexample :
    specPhoneMatch ("12345678" : String).data = true ∧
    (search_phone_presence "12345678").format_valid = false := by
  constructor
  · decide
  · decide

/-- C8 (amended): `search_phone_presence` marks the format valid
exactly when the phone string matches the source's regex
`^\+\d{1,3}\s?\d{3}\s?\d{3}\s?\d{3}$` (Python `re.match` semantics),
and a failed validation is only recorded in the returned result, never
a rejection. -/
theorem phone_format_valid_iff_source_regex (phone : String) :
    (search_phone_presence phone).phone = phone ∧
    ((search_phone_presence phone).format_valid = true ↔ PhonePattern phone.data) := by
  refine ⟨rfl, ?_⟩
  exact phoneRegexMatch_true_iff phone.data

lemma searchLoop_res_agree (username now : String)
    (fetch : String → Except String Response)
    (extract : Response → String → Metadata) :
    ∀ (keys : List String) (rdA rdB : ReportData) (resA resB : List SocialAccount)
      (rdA' rdB' : ReportData),
      searchLoop username fetch extract now keys rdA = .ok (resA, rdA') →
      searchLoop username fetch extract now keys rdB = .ok (resB, rdB') →
      resA = resB := by
  intro keys
  induction keys with
  | nil =>
    intro rdA rdB resA resB rdA' rdB' hA hB
    unfold searchLoop at hA hB
    simp only [Except.ok.injEq, Prod.mk.injEq] at hA hB
    rw [← hA.1, ← hB.1]
  | cons p ps ih =>
    intro rdA rdB resA resB rdA' rdB' hA hB
    unfold searchLoop at hA hB
    cases hc : check_username_availability username p fetch extract now with
    | error err =>
      rw [hc] at hA
      simp at hA
    | ok pair =>
      obtain ⟨account, lg⟩ := pair
      rw [hc] at hA hB
      dsimp only at hA hB
      by_cases hex : account.exists_ = true
      · rw [if_pos hex] at hA hB
        split at hA
        · exact absurd hA (by simp)
        next restA rdA'' heqA =>
          split at hB
          · exact absurd hB (by simp)
          next restB rdB'' heqB =>
            simp only [Except.ok.injEq, Prod.mk.injEq] at hA hB
            obtain ⟨hA1, -⟩ := hA
            obtain ⟨hB1, -⟩ := hB
            subst hA1
            subst hB1
            rw [ih _ _ _ _ _ _ heqA heqB]
      · rw [if_neg hex] at hA hB
        exact ih _ _ _ _ _ _ hA hB

lemma variantLoop_found_append (base now : String)
    (fetch : String → Except String Response)
    (extract : Response → String → Metadata) :
    ∀ (vs : List String) (rd : ReportData) (res : List SocialAccount) (rd' : ReportData),
      variantLoop base fetch extract now vs rd = .ok (res, rd') →
      ∃ Δ, rd'.found_accounts = rd.found_accounts ++ Δ := by
  intro vs
  induction vs with
  | nil =>
    intro rd res rd' h
    unfold variantLoop at h
    simp only [Except.ok.injEq, Prod.mk.injEq] at h
    obtain ⟨-, h2⟩ := h
    exact ⟨[], by rw [← h2]; simp⟩
  | cons v vs ih =>
    intro rd res rd' h
    unfold variantLoop at h
    by_cases hv : (v == base) = true
    · rw [if_pos hv] at h
      exact ih _ _ _ h
    · rw [if_neg hv] at h
      split at h
      · exact absurd h (by simp)
      next resH rdH heqH =>
        split at h
        · exact absurd h (by simp)
        next restV rdV heqV =>
          simp only [Except.ok.injEq, Prod.mk.injEq] at h
          obtain ⟨-, h2⟩ := h
          subst h2
          obtain ⟨-, hfa, -, -, -, -⟩ :=
            searchLoop_spec v now fetch extract registryKeys rd resH rdH heqH
          obtain ⟨Δ2, hΔ2⟩ := ih _ _ _ heqV
          exact ⟨_, by rw [hΔ2, hfa, List.append_assoc]⟩

lemma variantLoop_res_agree (base now : String)
    (fetch : String → Except String Response)
    (extract : Response → String → Metadata) :
    ∀ (vs : List String) (rdA rdB : ReportData) (resA resB : List SocialAccount)
      (rdA' rdB' : ReportData),
      variantLoop base fetch extract now vs rdA = .ok (resA, rdA') →
      variantLoop base fetch extract now vs rdB = .ok (resB, rdB') →
      resA = resB := by
  intro vs
  induction vs with
  | nil =>
    intro rdA rdB resA resB rdA' rdB' hA hB
    unfold variantLoop at hA hB
    simp only [Except.ok.injEq, Prod.mk.injEq] at hA hB
    rw [← hA.1, ← hB.1]
  | cons v vs ih =>
    intro rdA rdB resA resB rdA' rdB' hA hB
    unfold variantLoop at hA hB
    by_cases hv : (v == base) = true
    · rw [if_pos hv] at hA hB
      exact ih _ _ _ _ _ _ hA hB
    · rw [if_neg hv] at hA hB
      split at hA
      · exact absurd hA (by simp)
      next resHA rdHA heqHA =>
        split at hA
        · exact absurd hA (by simp)
        next restA rdVA heqVA =>
          split at hB
          · exact absurd hB (by simp)
          next resHB rdHB heqHB =>
            split at hB
            · exact absurd hB (by simp)
            next restB rdVB heqVB =>
              simp only [Except.ok.injEq, Prod.mk.injEq] at hA hB
              obtain ⟨hA1, -⟩ := hA
              obtain ⟨hB1, -⟩ := hB
              subst hA1
              subst hB1
              rw [searchLoop_res_agree v now fetch extract registryKeys
                    rdA rdB resHA resHB rdHA rdHB heqHA heqHB,
                 ih _ _ _ _ _ _ heqVA heqVB]

lemma comp_found_append (profile : PersonProfile)
    (fetch : String → Except String Response)
    (extract : Response → String → Metadata)
    (now : String) (rd rd' : ReportData)
    (h : comprehensive_search profile fetch extract now rd = .ok rd') :
    ∃ Δ, rd'.found_accounts = rd.found_accounts ++ Δ := by
  unfold comprehensive_search at h
  dsimp only at h
  split at h
  · exact absurd h (by simp)
  case h_2 main rd1 heq1 =>
    split at h
    · exact absurd h (by simp)
    case h_2 varres rd2 heq2 =>
      simp only [Except.ok.injEq] at h
      subst h
      obtain ⟨-, hfa1, -, -, -, -⟩ :=
        searchLoop_spec profile.common_username now fetch extract registryKeys
          (set_target_profile profile rd) main rd1 heq1
      obtain ⟨Δ2, hfa2⟩ := variantLoop_found_append profile.common_username now fetch extract
        _ rd1 varres rd2 heq2
      refine ⟨(main.map (fun a =>
        ({ platform := a.platform, username := a.username, url := a.url,
           confidence_score := a.confidence_score,
           profile_data := a.profile_data } : FoundRecord))) ++ Δ2, ?_⟩
      show rd2.found_accounts = rd.found_accounts ++ _
      rw [hfa2, hfa1, List.append_assoc]
      rfl

lemma comp_summary_agree (profile : PersonProfile)
    (fetch : String → Except String Response)
    (extract : Response → String → Metadata)
    (now : String) (rdA rdB rdA' rdB' : ReportData)
    (hA : comprehensive_search profile fetch extract now rdA = .ok rdA')
    (hB : comprehensive_search profile fetch extract now rdB = .ok rdB') :
    rdA'.verification_summary = rdB'.verification_summary ∧
    rdA'.recommendations = rdB'.recommendations := by
  unfold comprehensive_search at hA hB
  dsimp only at hA hB
  split at hA
  · exact absurd hA (by simp)
  case h_2 mainA rdA1 heqA1 =>
    split at hA
    · exact absurd hA (by simp)
    case h_2 varA rdA2 heqA2 =>
      simp only [Except.ok.injEq] at hA
      subst hA
      split at hB
      · exact absurd hB (by simp)
      case h_2 mainB rdB1 heqB1 =>
        split at hB
        · exact absurd hB (by simp)
        case h_2 varB rdB2 heqB2 =>
          simp only [Except.ok.injEq] at hB
          subst hB
          have hm : mainA = mainB :=
            searchLoop_res_agree profile.common_username now fetch extract registryKeys
              _ _ _ _ _ _ heqA1 heqB1
          have hv : varA = varB :=
            variantLoop_res_agree profile.common_username now fetch extract
              _ _ _ _ _ _ _ heqA2 heqB2
          subst hm
          subst hv
          exact ⟨rfl, rfl⟩

/-- C10: the shared report accumulates across searches on the same
verifier: after a second `comprehensive_search`, every account the
first search recorded is still at the front of `found_accounts`
(nothing is ever cleared), while the summary and recommendations of the
second report are computed freshly from the second call alone
(identical from any starting report state). -/
theorem report_found_accounts_persist (p1 p2 : PersonProfile)
    (f1 f2 : String → Except String Response)
    (e1 e2 : Response → String → Metadata)
    (n1 n2 : String) (rd0 rd1 rd2 : ReportData)
    (h1 : comprehensive_search p1 f1 e1 n1 rd0 = .ok rd1)
    (h2 : comprehensive_search p2 f2 e2 n2 rd1 = .ok rd2) :
    (∃ Δ, rd2.found_accounts = rd1.found_accounts ++ Δ) ∧
    (∀ rd0' rd2', comprehensive_search p2 f2 e2 n2 rd0' = .ok rd2' →
      rd2'.verification_summary = rd2.verification_summary ∧
      rd2'.recommendations = rd2.recommendations) :=
  ⟨comp_found_append p2 f2 e2 n2 rd1 rd2 h2,
   fun rd0' rd2' h' => comp_summary_agree p2 f2 e2 n2 rd0' rd1 rd2' rd2 h' h2⟩

/-- Witness for C10: two failing-network searches on one verifier. -/
theorem report_found_accounts_persist_witness :
    comprehensive_search profA fetchFail extractNone "t" (initialReport "t") = .ok rd1ex ∧
    comprehensive_search profB fetchFail extractNone "t" rd1ex = .ok rd2ex ∧
    ((∃ Δ, rd2ex.found_accounts = rd1ex.found_accounts ++ Δ) ∧
     (∀ rd0' rd2', comprehensive_search profB fetchFail extractNone "t" rd0' = .ok rd2' →
       rd2'.verification_summary = rd2ex.verification_summary ∧
       rd2'.recommendations = rd2ex.recommendations)) :=
  ⟨rfl, rfl,
   report_found_accounts_persist profA profB fetchFail fetchFail extractNone extractNone
     "t" "t" (initialReport "t") rd1ex rd2ex rfl rfl⟩
